import Mathlib

/-!
Verification development for the networking core of the permuter@home client
(`src/net/common.py` and `src/net/client.py`): the secure-channel `Port`
(framing, nonce counters, authenticated encryption) and the `Connection.run`
client state machine (capability negotiation, baseline validation, steady-state
task/result streaming, terminal feedback).

Python byte strings are modelled as `List Nat` (each entry one byte), Python
exceptions as the inductive `PyExc`, JSON values as `JVal` (floats as `Rat`,
which is faithful for the comparisons the code performs), and the PyNaCl `Box`
symbolically (an injective pairing of key, nonce and message), keeping PyNaCl's
documented contract that a nonce must be exactly 24 bytes.
-/

/-- A Python byte string: a list of byte values. -/
abbrev Bytes := List Nat

/-- The Python exceptions that the modelled code can raise or catch:
`EOFError` (caught specially by `Connection.run`), a generic `Exception`
carrying its message, and `ValueError`. -/
inductive PyExc where
  | eofError
  | exception (msg : String)
  | valueError (msg : String)
  deriving Repr, DecidableEq

/-- Modelled from the spec: `exception_to_string` is imported from the common
module but missing from the excerpt; per the spec ("exception text"), it
renders an exception as human-readable text. -/
def exception_to_string : PyExc → String
  | .eofError => "EOFError"
  | .exception m => m
  | .valueError m => m

/-- `w`-byte big-endian encoding of `n` (the low `8*w` bits), most significant
byte first, as produced by `struct.pack`. -/
def beBytes : Nat → Nat → Bytes
  | 0, _ => []
  | w + 1, n => beBytes w (n / 256) ++ [n % 256]

/-- `struct.pack(">Q", n)`: 8-byte big-endian encoding (struct.error for
out-of-range values is guarded at each call site). -/
def packQ (n : Nat) : Bytes := beBytes 8 n

/-- `struct.pack(">24xQ", n)`: 24 zero pad bytes followed by the 8-byte
big-endian encoding of `n` — 32 bytes in total. -/
def pack24xQ (n : Nat) : Bytes := List.replicate 24 0 ++ beBytes 8 n

/-- `struct.unpack(">Q", b)[0]`: big-endian decoding. -/
def unpackQ (b : Bytes) : Nat := b.foldl (fun a c => a * 256 + c) 0

/-- PyNaCl `Box.NONCE_SIZE`: an XSalsa20-Poly1305 nonce is exactly 24 bytes. -/
def NONCE_SIZE : Nat := 24

/-- Symbolic authenticated ciphertext of `msg` under box `key` and `nonce`:
an injective pairing, so that decryption can recognise exactly the
(key, nonce) pair that produced it. -/
def boxCipher (key : Nat) (nonce msg : Bytes) : Bytes := key :: (nonce ++ msg)

/-- Model of PyNaCl `Box.encrypt(msg, nonce)`: raises
`ValueError` unless the nonce is exactly 24 bytes; on success returns the
`EncryptedMessage` bytes, which are the nonce followed by the ciphertext. -/
def boxEncrypt (key : Nat) (msg nonce : Bytes) : Except PyExc Bytes :=
  if nonce.length ≠ NONCE_SIZE then
    .error (.valueError "The nonce must be exactly 24 bytes long")
  else
    .ok (nonce ++ boxCipher key nonce msg)

/-- Model of PyNaCl `Box.decrypt(data, nonce)` with an explicit nonce: raises
`ValueError` unless the nonce is exactly 24 bytes; treats `data` as a bare
ciphertext and authenticates it against the box key and the given nonce,
raising `CryptoError` (a generic exception here) on any mismatch. -/
def boxDecrypt (key : Nat) (data nonce : Bytes) : Except PyExc Bytes :=
  if nonce.length ≠ NONCE_SIZE then
    .error (.valueError "The nonce must be exactly 24 bytes long")
  else
    match data with
    | k :: rest =>
        if k = key ∧ rest.take NONCE_SIZE = nonce then .ok (rest.drop NONCE_SIZE)
        else .error (.exception "nacl CryptoError: decryption failed")
    | [] => .error (.exception "nacl CryptoError: decryption failed")

/-- `socket_read_fixed(sock, n)` over a stream modelled as the full byte
sequence available before end-of-stream: returns `n` bytes and the remaining
stream, or raises the generic `Exception("eof")` (as the code does) when the
stream ends short of `n` bytes. -/
def socket_read_fixed (stream : Bytes) (n : Nat) : Except PyExc (Bytes × Bytes) :=
  if stream.length < n then .error (.exception "eof")
  else .ok (stream.take n, stream.drop n)

/-- The mutable state of one `Port`: the shared box (identified symbolically
by a key) and the two nonce counters. -/
structure PortState where
  boxKey : Nat
  send_nonce : Nat
  receive_nonce : Nat
  deriving Repr, DecidableEq

/-- `Port.__init__`: the client starts with send counter 0 and receive
counter 1; the server the other way around. -/
def Port.init (boxKey : Nat) (is_client : Bool) : PortState :=
  { boxKey := boxKey
    send_nonce := if is_client then 0 else 1
    receive_nonce := if is_client then 1 else 0 }

/-- `Port.send`: build the nonce with `struct.pack(">24xQ", send_nonce)`
(struct.error when the counter exceeds 64 bits), advance the counter by 2,
encrypt, and frame as 8-byte big-endian length followed by the encrypted
data. Returns the state after the call together with the wire bytes or the
exception raised. -/
def PortState.send (st : PortState) (msg : Bytes) : PortState × Except PyExc Bytes :=
  if st.send_nonce ≥ 2 ^ 64 then
    (st, .error (.exception "struct.error: int too large to convert"))
  else
    let nonce := pack24xQ st.send_nonce
    let st' := { st with send_nonce := st.send_nonce + 2 }
    match boxEncrypt st.boxKey msg nonce with
    | .error e => (st', .error e)
    | .ok data => (st', .ok (packQ data.length ++ data))

/-- `Port.receive`: read the 8-byte length, read that many bytes, build the
nonce from the receive counter, advance it by 2, and decrypt. Returns the
state after the call together with (message, remaining stream) or the
exception raised. -/
def PortState.receive (st : PortState) (stream : Bytes) :
    PortState × Except PyExc (Bytes × Bytes) :=
  match socket_read_fixed stream 8 with
  | .error e => (st, .error e)
  | .ok (length_data, s1) =>
    match socket_read_fixed s1 (unpackQ length_data) with
    | .error e => (st, .error e)
    | .ok (data, s2) =>
      if st.receive_nonce ≥ 2 ^ 64 then
        (st, .error (.exception "struct.error: int too large to convert"))
      else
        let nonce := pack24xQ st.receive_nonce
        let st' := { st with receive_nonce := st.receive_nonce + 2 }
        match boxDecrypt st.boxKey data nonce with
        | .error e => (st', .error e)
        | .ok m => (st', .ok (m, s2))

/-- One operation performed on a `Port`: a send of a message, or a receive
against a given incoming stream. -/
inductive PortOp where
  | send (msg : Bytes)
  | recv (stream : Bytes)

/-- Run a sequence of operations on a port, recording for every operation in
which a nonce was actually built (observable as the counter having advanced)
the direction and the counter value used. -/
def portTrace : PortState → List PortOp → List (Bool × Nat)
  | _, [] => []
  | st, .send m :: ops =>
    let st' := (st.send m).1
    (if st'.send_nonce ≠ st.send_nonce then [(true, st.send_nonce)] else []) ++
      portTrace st' ops
  | st, .recv w :: ops =>
    let st' := (st.receive w).1
    (if st'.receive_nonce ≠ st.receive_nonce then [(false, st.receive_nonce)] else []) ++
      portTrace st' ops

/-- The counter values used for sends in a trace, in order. -/
def sendNonces (tr : List (Bool × Nat)) : List Nat :=
  (tr.filter (fun p => p.1 = true)).map (·.2)

/-- The counter values used for receives in a trace, in order. -/
def recvNonces (tr : List (Bool × Nat)) : List Nat :=
  (tr.filter (fun p => p.1 = false)).map (·.2)

/-- A JSON value as `json.loads` produces it: JSON integers become Python
`int` and JSON fractional numbers become Python `float` (modelled as `Rat`,
faithful for the orderings and equalities the code performs). -/
inductive JVal where
  | null
  | bool (b : Bool)
  | int (n : Int)
  | float (q : Rat)
  | str (s : String)
  | arr (l : List JVal)
  | dict (l : List (String × JVal))

/-- `obj.get(key)` on a Python dict (keys are unique). -/
def jLookup : List (String × JVal) → String → Option JVal
  | [], _ => none
  | (k, v) :: rest, key => if k = key then some v else jLookup rest key

/-- The types `json_prop` is instantiated at in this code. -/
inductive PyType where
  | float
  | int
  | str
  | bool
  | dict
  | list

/-- Python `isinstance` on JSON-decoded values: note that `bool` is a
subclass of `int` (so `isinstance(True, int)` holds) while `int` is not a
subclass of `float` (so `isinstance(5, float)` does not hold). -/
def isinstance : JVal → PyType → Bool
  | .float _, .float => true
  | .int _, .int => true
  | .bool _, .int => true
  | .bool _, .bool => true
  | .str _, .str => true
  | .dict _, .dict => true
  | .arr _, .list => true
  | _, _ => false

/-- `t.__name__` for the error message of `json_prop`. -/
def pyTypeName : PyType → String
  | .float => "float"
  | .int => "int"
  | .str => "str"
  | .bool => "bool"
  | .dict => "dict"
  | .list => "list"

/-- `type(ret).__name__` for the error message of `json_prop`. -/
def jTypeName : Option JVal → String
  | none => "NoneType"
  | some .null => "NoneType"
  | some (.bool _) => "bool"
  | some (.int _) => "int"
  | some (.float _) => "float"
  | some (.str _) => "str"
  | some (.arr _) => "list"
  | some (.dict _) => "dict"

/-- `json_prop(obj, prop, t)`: look the property up with `obj.get` and check
its type with `isinstance`, raising `ValueError` otherwise (a missing
property is `None` and never an instance of any of these types). Calling it
on a non-dict raises `AttributeError`, since only dicts have `.get`. -/
def json_prop (obj : JVal) (prop : String) (t : PyType) : Except PyExc JVal :=
  match obj with
  | .dict l =>
    match jLookup l prop with
    | some v =>
      if isinstance v t then .ok v
      else .error (.valueError ("Member " ++ prop ++ " must have type " ++
        pyTypeName t ++ "; got " ++ jTypeName (some v)))
    | none => .error (.valueError ("Member " ++ prop ++ " must have type " ++
        pyTypeName t ++ "; got NoneType"))
  | _ => .error (.exception "AttributeError: object has no attribute get")

/-- `json_prop(obj, prop, float)` projected to its value. -/
def jpFloat (obj : JVal) (prop : String) : Except PyExc Rat :=
  match json_prop obj prop .float with
  | .error e => .error e
  | .ok (.float q) => .ok q
  | .ok _ => .error (.exception "unreachable")

/-- `json_prop(obj, prop, int)` projected to its value; a `bool` passes the
`isinstance` check and counts as 1 or 0. -/
def jpInt (obj : JVal) (prop : String) : Except PyExc Int :=
  match json_prop obj prop .int with
  | .error e => .error e
  | .ok (.int n) => .ok n
  | .ok (.bool b) => .ok (if b then 1 else 0)
  | .ok _ => .error (.exception "unreachable")

/-- `json_prop(obj, prop, str)` projected to its value. -/
def jpStr (obj : JVal) (prop : String) : Except PyExc String :=
  match json_prop obj prop .str with
  | .error e => .error e
  | .ok (.str s) => .ok s
  | .ok _ => .error (.exception "unreachable")

/-- `json_prop(obj, prop, bool)` projected to its value. -/
def jpBool (obj : JVal) (prop : String) : Except PyExc Bool :=
  match json_prop obj prop .bool with
  | .error e => .error e
  | .ok (.bool b) => .ok b
  | .ok _ => .error (.exception "unreachable")

/-- `json_prop(obj, prop, list)` projected to its value. -/
def jpList (obj : JVal) (prop : String) : Except PyExc (List JVal) :=
  match json_prop obj prop .list with
  | .error e => .error e
  | .ok (.arr l) => .ok l
  | .ok _ => .error (.exception "unreachable")

/-- `json_prop(obj, prop, dict)` projected to its value. -/
def jpDict (obj : JVal) (prop : String) : Except PyExc (List (String × JVal)) :=
  match json_prop obj prop .dict with
  | .error e => .error e
  | .ok (.dict d) => .ok d
  | .ok _ => .error (.exception "unreachable")

/-- Modelled from the spec: `json_array` is imported from the common module
but missing from the excerpt; mirroring `json_prop` and the spec's
protocol-violation rule, it checks every element of the array against the
expected type (`dict`, its only use in `client.py`), raising `ValueError`
on a non-object element. -/
def json_array : List JVal → Except PyExc (List (List (String × JVal)))
  | [] => .ok []
  | .dict d :: rest =>
    match json_array rest with
    | .ok ds => .ok (d :: ds)
    | .error e => .error e
  | _ :: _ => .error (.valueError "Member of array must have type dict")

/-- Python `x == True` for a JSON-decoded value (`None` when the key is
absent): `True == True`, and because `bool` is an `int`, numeric cross-type
equality also makes `1 == True` and `1.0 == True`; all other values are
unequal to `True`. -/
def pyEqTrue : Option JVal → Bool
  | some (.bool b) => b
  | some (.int n) => n = 1
  | some (.float q) => q = 1
  | _ => false

/-- Python `str()` of a float, restricted to the values this model produces:
an integral float renders with a trailing ".0". -/
def pyStrFloat (q : Rat) : String :=
  if q.den = 1 then toString q.num ++ ".0" else toString q

/-- Modelled from the spec: `EvalError`, `CandidateResult` and `Profiler`
live in modules missing from the excerpt; per the spec (§3), an evaluation
outcome is either a failure variant with error text or a success variant
with score, content hash, optional source and profiling stats (an opaque
stat-name-to-time map). -/
inductive EvalResultM where
  | evalError (exc_str : String)
  | candidate (score : Int) (hash : String) (source : Option String)
      (profiler : List (String × Rat))
  deriving Repr, DecidableEq

/-- The loop body of `_profiler_from_json`: for every key of the profiler
object, look it up again with `json_prop(obj, key, float)` and record the
stat (the stat-name enum lookup lives in the missing Profiler module and is
modelled as accepting any name, per the spec's opaque profiling stats). -/
def profLoop (obj : List (String × JVal)) : List (String × JVal) →
    Except PyExc (List (String × Rat))
  | [] => .ok []
  | (k, _) :: rest =>
    match jpFloat (.dict obj) k with
    | .error e => .error e
    | .ok q =>
      match profLoop obj rest with
      | .error e => .error e
      | .ok l => .ok ((k, q) :: l)

/-- `_profiler_from_json`. -/
def _profiler_from_json (obj : List (String × JVal)) :
    Except PyExc (List (String × Rat)) :=
  profLoop obj obj

/-- `_result_from_json(obj, source)`: an `"error"` key selects the failure
variant (discarding `source`); otherwise the profiler object is read first,
then score and hash, and the success variant is built with the given
`source`. -/
def _result_from_json (obj : List (String × JVal)) (source : Option String) :
    Except PyExc EvalResultM :=
  if (jLookup obj "error").isSome then
    match jpStr (.dict obj) "error" with
    | .error e => .error e
    | .ok s => .ok (.evalError s)
  else
    match jpDict (.dict obj) "profiler" with
    | .error e => .error e
    | .ok pobj =>
      match _profiler_from_json pobj with
      | .error e => .error e
      | .ok prof =>
        match jpInt (.dict obj) "score" with
        | .error e => .error e
        | .ok score =>
          match jpStr (.dict obj) "hash" with
          | .error e => .error e
          | .ok h => .ok (.candidate score h source prof)

/-- A feedback event put on the feedback queue (each is tagged with the
server nickname in the code; the tag is a constant of the connection and is
omitted here): an informational `Message`, `NeedMoreWork`, `WorkDone`, or
the terminal `Finished` with its optional reason. -/
inductive Feedback where
  | message (text : String)
  | needMoreWork
  | workDone (permuter : Int) (result : EvalResultM)
  | finished (reason : Option String)
  deriving Repr, DecidableEq

/-- An observable action on the port's sending side: a raw `send`, a
`send_json`, or the half-close `shutdown(SHUT_WR)`. -/
inductive Sent where
  | raw (b : Bytes)
  | json (j : JVal)
  | shutdownWr

/-- One entry of the task queue: the terminal `Finished` sentinel or a
`(permuter index, seed)` work tuple. -/
inductive TaskM where
  | finishedSentinel
  | work (permuter : Int) (seed : Int)

/-- The fields of a `PortablePermuter` that `Connection` reads (the object
is built by an external collaborator before the connection starts). -/
structure PortablePermuter where
  fn_name : String
  filename : String
  keep_prob : Rat
  stack_differences : Bool
  compressed_source : Bytes
  base_score : Int
  base_hash : String
  target_o_bin : Bytes
  compile_script : String

/-- `ServerProps`. -/
structure ServerProps where
  min_priority : Rat
  num_cpus : Rat
  deriving Repr, DecidableEq

/-- The construction of `ServerProps` in `Connection._init` from the decoded
capabilities object: both properties are read with
`json_prop(obj, ..., float)`. -/
def serverPropsOfJson (obj : JVal) : Except PyExc ServerProps :=
  match jpFloat obj "min_priority" with
  | .error e => .error e
  | .ok mp =>
    match jpFloat obj "num_cpus" with
    | .error e => .error e
    | .ok nc => .ok { min_priority := mp, num_cpus := nc }

/-- The environment one `Connection.run` call interacts with. Modelled from
the spec where the excerpt is incomplete: `SocketPort` (the `Port` subclass
built by `_setup`) is missing from the excerpt, so the channel is modelled
at the granularity of the plaintext messages it delivers — `inc` is the
sequence of messages the port will deliver before the stream ends (a
receive past the end raises the generic eof exception exactly as
`socket_read_fixed` does), `decode` models `json.loads` (`none` being a
`JSONDecodeError`, a `ValueError`), and `decompress` models
`zlib.decompress` followed by UTF-8 decoding (`none` being either of their
exceptions). `setupErr` is the outcome of `_setup`, whose crypto handshake
is out of scope here: `none` means the handshake completed. -/
structure ConnEnv where
  priority : Rat
  grant : Bytes
  permuters : List PortablePermuter
  tasks : List TaskM
  inc : List Bytes
  decode : Bytes → Option JVal
  decompress : Bytes → Option String
  setupErr : Option PyExc

/-- The JSON metadata object for one permuter in `_send_permuters`. -/
def permuterJson (p : PortablePermuter) : JVal :=
  .dict [("fn_name", .str p.fn_name), ("filename", .str p.filename),
         ("keep_prob", .float p.keep_prob),
         ("stack_differences", .bool p.stack_differences),
         ("compile_script", .str p.compile_script)]

/-- The `init_obj` message of `_send_permuters`: the caller's priority plus
the metadata of every permuter. -/
def initObj (priority : Rat) (ps : List PortablePermuter) : JVal :=
  .dict [("priority", .float priority), ("permuters", .arr (ps.map permuterJson))]

/-- The per-permuter raw sends of `_send_permuters`: compressed source then
compiled object, in permuter order. -/
def permuterBlobs (ps : List PortablePermuter) : List Sent :=
  ps.flatMap (fun p => [Sent.raw p.compressed_source, Sent.raw p.target_o_bin])

/-- `port.receive_json()`: receive one message, parse it as JSON, and require
the top-level value to be a dictionary. -/
def recvJson (decode : Bytes → Option JVal) (inc : List Bytes) :
    Except PyExc (List (String × JVal) × List Bytes) :=
  match inc with
  | [] => .error (.exception "eof")
  | b :: rest =>
    match decode b with
    | none => .error (.valueError "json.JSONDecodeError")
    | some (.dict d) => .ok (d, rest)
    | some _ => .error (.valueError "Top-level JSON value must be a dictionary")

/-- The baseline-validation loop of `Connection.run` (the `for i, base in
enumerate(bases)` loop): per base, read `base_score` and `base_hash`; a
score mismatch raises immediately (keeping the notes already put on the
queue); a hash mismatch alone puts one informational note and continues.
The two lists have equal length at the call site (checked just before). -/
def validateBases : List PortablePermuter → List (List (String × JVal)) →
    List Feedback × Option PyExc
  | p :: ps, base :: bs =>
    (match jpInt (.dict base) "base_score" with
     | .error e => ([], some e)
     | .ok base_score =>
       match jpStr (.dict base) "base_hash" with
       | .error e => ([], some e)
       | .ok base_hash =>
         if base_score ≠ p.base_score then
           ([], some (.valueError ("mismatching base score! (" ++
             toString base_score ++ " instead of " ++ toString p.base_score ++ ")")))
         else
           let rest := validateBases ps bs
           ((if base_hash ≠ p.base_hash then [Feedback.message "note: mismatching hash"]
             else []) ++ rest.1, rest.2))
  | _, _ => ([], none)

/-- How the body of `Connection.run`'s try-block ends: a `return` (with the
`finish_reason` in force), an exception, or blocked forever on
`task_queue.get()`. -/
inductive BodyRes where
  | ret (reason : Option String)
  | raise (e : PyExc)
  | blocked
  deriving Repr

/-- The `{"type": "finish"}` message. -/
def finishMsg : JVal := .dict [("type", .str "finish")]

/-- The `{"type": "work", "permuter": p, "seed": s}` message. -/
def workMsg (p s : Int) : JVal :=
  .dict [("type", .str "work"), ("permuter", .int p), ("seed", .int s)]

/-- The outbound half of one main-loop iteration: unless the sending-finished
flag is set, pull one task (blocking when the queue is exhausted); the
sentinel sends `{"type":"finish"}`, half-closes the write side, and sets the
flag; a work task sends the work message. -/
def taskStep (finished : Bool) (tasks : List TaskM) (sent : List Sent) :
    Option (Bool × List TaskM × List Sent) :=
  match finished, tasks with
  | false, [] => none
  | false, .finishedSentinel :: ts =>
    some (true, ts, sent ++ [.json finishMsg, .shutdownWr])
  | false, .work p s :: ts => some (false, ts, sent ++ [.json (workMsg p s)])
  | true, ts => some (finished, ts, sent)

/-- What the inbound half of one main-loop iteration decides: break out of
the loop, continue after emitting one feedback event (with the stream as it
stands after any extra receive), or raise. -/
inductive StepRes where
  | finish
  | emit (evt : Feedback) (rest' : List Bytes)
  | err (e : PyExc)

/-- The dispatch on the `"type"` field of one received message in the main
loop of `Connection.run`: `"finish"` breaks the loop; `"need_work"` emits
`NeedMoreWork`; `"result"` reads the permuter index, receives one extra
compressed-source message exactly when `msg.get("has_source") == True`
(decompressing and decoding it into the outcome's source), builds the
outcome with `_result_from_json` and emits `WorkDone`; anything else is a
fatal protocol violation. -/
def dispatchMsg (env : ConnEnv) (msg : List (String × JVal)) (rest : List Bytes) :
    StepRes :=
  match jpStr (.dict msg) "type" with
  | .error e => .err e
  | .ok mt =>
    if mt = "finish" then .finish
    else if mt = "need_work" then .emit .needMoreWork rest
    else if mt = "result" then
      match jpInt (.dict msg) "permuter" with
      | .error e => .err e
      | .ok idx =>
        if pyEqTrue (jLookup msg "has_source") then
          match rest with
          | [] => .err (.exception "eof")
          | b2 :: rest2 =>
            match env.decompress b2 with
            | none => .err (.exception "zlib.error")
            | some src =>
              match _result_from_json msg (some src) with
              | .error e => .err e
              | .ok r => .emit (.workDone idx r) rest2
        else
          match _result_from_json msg none with
          | .error e => .err e
          | .ok r => .emit (.workDone idx r) rest
    else .err (.valueError ("Invalid message type " ++ mt))

/-- The main loop of `Connection.run` (`while True:` at the bottom of the
try-block), with an explicit fuel argument as a totality device (each
iteration consumes at least one incoming message, so any fuel above the
stream length is enough — `steadyLoopF_fuel` below proves the result does
not depend on it): one outbound `taskStep`, then exactly one `receive_json`
whose decoded dictionary is dispatched by `dispatchMsg`. -/
def steadyLoopF (env : ConnEnv) : Nat → Bool → List TaskM → List Bytes →
    List Sent → List Feedback → List Sent × List Feedback × BodyRes
  | 0, _, _, _, sent, fb => (sent, fb, .raise (.exception "fuel exhausted"))
  | fuel + 1, finished, tasks, inc, sent, fb =>
    match taskStep finished tasks sent with
    | none => (sent, fb, .blocked)
    | some (fin', ts', sent') =>
      match inc with
      | [] => (sent', fb, .raise (.exception "eof"))
      | b :: rest =>
        match env.decode b with
        | none => (sent', fb, .raise (.valueError "json.JSONDecodeError"))
        | some (.dict msg) =>
          (match dispatchMsg env msg rest with
           | .finish => (sent', fb, .ret none)
           | .err e => (sent', fb, .raise e)
           | .emit evt rest' => steadyLoopF env fuel fin' ts' rest' sent' (fb ++ [evt]))
        | some _ =>
          (sent', fb, .raise (.valueError "Top-level JSON value must be a dictionary"))

/-- The main loop with enough fuel for its stream. -/
def steadyLoop (env : ConnEnv) (finished : Bool) (tasks : List TaskM)
    (inc : List Bytes) (sent : List Sent) (fb : List Feedback) :
    List Sent × List Feedback × BodyRes :=
  steadyLoopF env (inc.length + 1) finished tasks inc sent fb

/-- The part of `Connection.run`'s try-block after the priority gate has
passed and `_send_permuters` has run (`sent2` holds the sends so far):
receive the compile-result message, on failure return the compile reason,
otherwise check `perm_bases` (element types and length), run baseline
validation, put the initial `NeedMoreWork`, and enter the main loop. -/
def connRunRest (env : ConnEnv) (sent2 : List Sent) (inc1 : List Bytes) :
    List Sent × List Feedback × BodyRes :=
  match recvJson env.decode inc1 with
  | .error e => (sent2, [], .raise e)
  | .ok (msg, inc2) =>
    match jpBool (.dict msg) "success" with
    | .error e => (sent2, [], .raise e)
    | .ok success =>
      if success = false then
        match jpStr (.dict msg) "error" with
        | .error e => (sent2, [], .raise e)
        | .ok error => (sent2, [], .ret (some ("failed to compile: " ++ error)))
      else
        match jpList (.dict msg) "perm_bases" with
        | .error e => (sent2, [], .raise e)
        | .ok bl =>
          match json_array bl with
          | .error e => (sent2, [], .raise e)
          | .ok bases =>
            if bases.length ≠ env.permuters.length then
              (sent2, [], .raise (.valueError "perm_bases has wrong size"))
            else
              match validateBases env.permuters bases with
              | (notes, some e) => (sent2, notes, .raise e)
              | (notes, none) =>
                steadyLoop env false env.tasks inc2 sent2
                  (notes ++ [Feedback.needMoreWork])

/-- The try-block of `Connection.run`: `_setup`, `_init` (send the grant,
receive and decode the capabilities), the priority gate, `_send_permuters`,
then `connRunRest` for the rest of the session. Returns the sends, the
feedback events put so far, and how the block ended. -/
def connRunBody (env : ConnEnv) : List Sent × List Feedback × BodyRes :=
  match env.setupErr with
  | some e => ([], [], .raise e)
  | none =>
    match env.inc with
    | [] => ([Sent.raw env.grant], [], .raise (.exception "eof"))
    | b0 :: inc1 =>
      match env.decode b0 with
      | none => ([Sent.raw env.grant], [], .raise (.valueError "json.JSONDecodeError"))
      | some obj =>
        match serverPropsOfJson obj with
        | .error e => ([Sent.raw env.grant], [], .raise e)
        | .ok props =>
          if env.priority < props.min_priority then
            ([Sent.raw env.grant], [],
              .ret (some ("skipping due to priority requirement " ++
                pyStrFloat props.min_priority)))
          else
            connRunRest env
              ([Sent.raw env.grant,
                Sent.json (initObj env.priority env.permuters)] ++
                permuterBlobs env.permuters) inc1

/-- How `Connection.run` as a whole is observed: it returned (having put the
listed feedback, the terminal `Finished` included, and performed the listed
sends), or it blocked forever on `task_queue.get()` (so the finally-block
never ran). -/
inductive RunOutcome where
  | returned (sent : List Sent) (fb : List Feedback)
  | blockedTask (sent : List Sent) (fb : List Feedback)

/-- The two except-clauses of `Connection.run`: `EOFError` becomes the
reason "disconnected"; any other `Exception` becomes "error: " followed by
its text. -/
def handleExc : PyExc → String
  | .eofError => "disconnected"
  | e => "error: " ++ exception_to_string e

/-- `Connection.run`: run the try-block, map an escaping exception to its
reason through the except-clauses, and let the finally-block put exactly one
terminal `Finished` carrying the `finish_reason`. -/
def connRun (env : ConnEnv) : RunOutcome :=
  match connRunBody env with
  | (s, fb, .blocked) => .blockedTask s fb
  | (s, fb, .ret r) => .returned s (fb ++ [.finished r])
  | (s, fb, .raise e) => .returned s (fb ++ [.finished (some (handleExc e))])

/-- Python `obj.get(key)` for an arbitrary JSON value: a real lookup on a
dict and nothing otherwise (`json_prop` raises on a non-dict; `jGet` is the
specification-side observable used to state theorems about lookups). -/
def jGet : JVal → String → Option JVal
  | .dict l, k => jLookup l k
  | _, _ => none

/-- Whether a send belongs to the finish sequence: the `{"type":"finish"}`
message or the accompanying half-close. -/
def isFinishSent : Sent → Bool
  | .json (.dict l) =>
    (match jLookup l "type" with
     | some (.str s) => s = "finish"
     | _ => false)
  | .shutdownWr => true
  | _ => false

/-- A capabilities message with the given minimum priority and cpu count. -/
def capsMsg (mp nc : Rat) : JVal :=
  .dict [("min_priority", .float mp), ("num_cpus", .float nc)]

/-- An environment whose stream ends immediately: the very first receive of
the session (inside `_init`) hits end-of-stream. -/
def envC3 : ConnEnv :=
  { priority := 0, grant := [9], permuters := [], tasks := [], inc := [],
    decode := fun _ => none, decompress := fun _ => none, setupErr := none }

/-- The compile-result message for a session with no permuters. -/
def compileOkEmpty : JVal := .dict [("success", .bool true), ("perm_bases", .arr [])]

/-- Decoder for `envC4`: message `[0]` is the capabilities, `[1]` the
compile result, `[2]` the server's `finish`. -/
def decodeC4 : Bytes → Option JVal
  | [0] => some (capsMsg 3 4)
  | [1] => some compileOkEmpty
  | [2] => some finishMsg
  | _ => none

/-- An environment in which the server sends `finish` while the client still
has a work task queued and has never pulled the sentinel: the loop receives
`finish` on its very first iteration, right after sending one work message. -/
def envC4 : ConnEnv :=
  { priority := 5, grant := [7], permuters := [], tasks := [.work 0 1],
    inc := [[0], [1], [2]], decode := decodeC4, decompress := fun _ => none,
    setupErr := none }

/-- Decoder serving only a capabilities message with `min_priority = 5`. -/
def decodeC5w : Bytes → Option JVal
  | [0] => some (capsMsg 5 4)
  | _ => none

/-- An environment whose caller priority 3 is below the server minimum 5. -/
def envC5w : ConnEnv :=
  { priority := 3, grant := [7], permuters := [], tasks := [], inc := [[0]],
    decode := decodeC5w, decompress := fun _ => none, setupErr := none }

/-- A permuter whose locally stored baseline is score 100 and hash "abc". -/
def permC6 : PortablePermuter :=
  { fn_name := "f", filename := "file.c", keep_prob := 1,
    stack_differences := false, compressed_source := [1], base_score := 100,
    base_hash := "abc", target_o_bin := [2], compile_script := "s" }

/-- A compile result reporting baseline score 99 and hash "abc". -/
def compileC6bad : JVal :=
  .dict [("success", .bool true),
         ("perm_bases", .arr [.dict [("base_score", .int 99), ("base_hash", .str "abc")]])]

/-- A compile result reporting baseline score 100 and hash "xyz". -/
def compileC6hash : JVal :=
  .dict [("success", .bool true),
         ("perm_bases", .arr [.dict [("base_score", .int 100), ("base_hash", .str "xyz")]])]

/-- Decoder for the score-mismatch baseline scenario. -/
def decodeC6bad : Bytes → Option JVal
  | [0] => some (capsMsg 3 4)
  | [1] => some compileC6bad
  | _ => none

/-- Decoder for the hash-mismatch baseline scenario. -/
def decodeC6hash : Bytes → Option JVal
  | [0] => some (capsMsg 3 4)
  | [1] => some compileC6hash
  | _ => none

/-- The spec's baseline-gate scenario with a server-reported score of 99
against a local score of 100. -/
def envC6bad : ConnEnv :=
  { priority := 5, grant := [7], permuters := [permC6], tasks := [],
    inc := [[0], [1]], decode := decodeC6bad, decompress := fun _ => none,
    setupErr := none }

/-- The spec's baseline-gate scenario with matching score 100 but hash "xyz"
against local hash "abc"; the task queue holds the terminal sentinel and the
stream ends after the compile result. -/
def envC6hash : ConnEnv :=
  { priority := 5, grant := [7], permuters := [permC6],
    tasks := [.finishedSentinel], inc := [[0], [1]], decode := decodeC6hash,
    decompress := fun _ => none, setupErr := none }

/-- An environment for exercising the terminal-feedback shape: the stream
ends immediately. -/
def envC7 : ConnEnv :=
  { priority := 0, grant := [5], permuters := [], tasks := [], inc := [],
    decode := fun _ => none, decompress := fun _ => none, setupErr := none }

/-- A result message without `has_source`. -/
def msgC10 : List (String × JVal) :=
  [("type", .str "result"), ("permuter", .int 0), ("score", .int 7),
   ("hash", .str "h"), ("profiler", .dict [])]

/-- A result message with `has_source: true`. -/
def msgC10s : List (String × JVal) :=
  [("type", .str "result"), ("permuter", .int 0), ("has_source", .bool true),
   ("score", .int 7), ("hash", .str "h"), ("profiler", .dict [])]

/-- Decoder for the result-message scenarios. -/
def decodeC10 : Bytes → Option JVal
  | [0] => some (.dict msgC10)
  | [1] => some (.dict msgC10s)
  | _ => none

/-- An environment for exercising the `"result"` branch of the main loop. -/
def envC10 : ConnEnv :=
  { priority := 0, grant := [], permuters := [], tasks := [], inc := [],
    decode := decodeC10,
    decompress := fun b => if b = [9] then some "src" else none,
    setupErr := none }

/-- A well-formed `perm_bases` entry for every (score, hash) pair: the dict
`{"base_score": score, "base_hash": hash}`. -/
def canonBases (shs : List (Int × String)) : List (List (String × JVal)) :=
  shs.map (fun sh => [("base_score", JVal.int sh.1), ("base_hash", JVal.str sh.2)])


/-- Invariant of a port trace relative to the starting counter values: every
recorded nonce is at least its direction's starting counter, has that
counter's parity, fits in 64 bits, and each direction's nonces are strictly
increasing. -/
def TraceOk (s0 r0 : Nat) (tr : List (Bool × Nat)) : Prop :=
  (∀ x ∈ tr, (x.1 = true → s0 ≤ x.2 ∧ x.2 % 2 = s0 % 2 ∧ x.2 < 2 ^ 64) ∧
             (x.1 = false → r0 ≤ x.2 ∧ x.2 % 2 = r0 % 2 ∧ x.2 < 2 ^ 64)) ∧
  List.Chain' (· < ·) (sendNonces tr) ∧
  List.Chain' (· < ·) (recvNonces tr)

lemma beBytes_length (w : Nat) : ∀ n, (beBytes w n).length = w := by
  induction w with
  | zero => intro n; rfl
  | succ w ih => intro n; simp [beBytes, ih]

lemma pack24xQ_length (n : Nat) : (pack24xQ n).length = 32 := by
  simp [pack24xQ, beBytes_length]

lemma send_state (st : PortState) (m : Bytes) :
    (st.send m).1 = if st.send_nonce ≥ 2 ^ 64 then st
      else { st with send_nonce := st.send_nonce + 2 } := by
  unfold PortState.send
  split
  · rfl
  · cases boxEncrypt st.boxKey m (pack24xQ st.send_nonce) <;> rfl

lemma receive_state (st : PortState) (w : Bytes) :
    (st.receive w).1 = st ∨
    ((st.receive w).1 = { st with receive_nonce := st.receive_nonce + 2 } ∧
      st.receive_nonce < 2 ^ 64) := by
  unfold PortState.receive
  split
  · exact Or.inl rfl
  · split
    · exact Or.inl rfl
    · split
      · exact Or.inl rfl
      · rename_i data s2 heq2 hg
        cases boxDecrypt st.boxKey data (pack24xQ st.receive_nonce) <;>
          exact Or.inr ⟨rfl, by omega⟩

lemma sendNonces_cons_send (v : Nat) (tr : List (Bool × Nat)) :
    sendNonces ((true, v) :: tr) = v :: sendNonces tr := by
  simp [sendNonces]

lemma sendNonces_cons_recv (v : Nat) (tr : List (Bool × Nat)) :
    sendNonces ((false, v) :: tr) = sendNonces tr := by
  simp [sendNonces]

lemma recvNonces_cons_send (v : Nat) (tr : List (Bool × Nat)) :
    recvNonces ((true, v) :: tr) = recvNonces tr := by
  simp [recvNonces]

lemma recvNonces_cons_recv (v : Nat) (tr : List (Bool × Nat)) :
    recvNonces ((false, v) :: tr) = v :: recvNonces tr := by
  simp [recvNonces]

lemma mem_of_mem_sendNonces {tr : List (Bool × Nat)} {n : Nat}
    (h : n ∈ sendNonces tr) : (true, n) ∈ tr := by
  simp only [sendNonces, List.mem_map, List.mem_filter] at h
  obtain ⟨⟨b, v⟩, ⟨hmem, hb⟩, hv⟩ := h
  simp only [decide_eq_true_eq] at hb
  subst hb
  subst hv
  exact hmem

lemma mem_of_mem_recvNonces {tr : List (Bool × Nat)} {n : Nat}
    (h : n ∈ recvNonces tr) : (false, n) ∈ tr := by
  simp only [recvNonces, List.mem_map, List.mem_filter] at h
  obtain ⟨⟨b, v⟩, ⟨hmem, hb⟩, hv⟩ := h
  simp only [decide_eq_true_eq] at hb
  subst hb
  subst hv
  exact hmem

lemma portTrace_ok (ops : List PortOp) : ∀ st : PortState,
    TraceOk st.send_nonce st.receive_nonce (portTrace st ops) := by
  induction ops with
  | nil =>
    intro st
    refine ⟨by simp [portTrace], ?_, ?_⟩ <;> simp [portTrace, sendNonces, recvNonces]
  | cons op ops ih =>
    intro st
    cases op with
    | send m =>
      have hs := send_state st m
      by_cases hg : st.send_nonce ≥ 2 ^ 64
      · rw [if_pos hg] at hs
        show TraceOk _ _ (portTrace st (.send m :: ops))
        rw [portTrace, hs, if_neg (by simp), List.nil_append]
        exact ih st
      · rw [if_neg hg] at hs
        show TraceOk _ _ (portTrace st (.send m :: ops))
        rw [portTrace, hs]
        rw [if_pos (by simp)]
        have ih' := ih { st with send_nonce := st.send_nonce + 2 }
        rw [show ({ st with send_nonce := st.send_nonce + 2 } : PortState).send_nonce
              = st.send_nonce + 2 from rfl,
            show ({ st with send_nonce := st.send_nonce + 2 } : PortState).receive_nonce
              = st.receive_nonce from rfl] at ih'
        simp only [List.singleton_append]
        obtain ⟨hmem, hcs, hcr⟩ := ih'
        refine ⟨?_, ?_, ?_⟩
        · intro x hx
          rcases List.mem_cons.mp hx with hx | hx
          · subst hx
            refine ⟨fun _ => ⟨le_refl _, rfl, by omega⟩, fun hfalse => by simp at hfalse⟩
          · have h2 := hmem x hx
            refine ⟨fun ht => ?_, fun hf => (h2.2 hf)⟩
            obtain ⟨ha, hb, hc⟩ := h2.1 ht
            exact ⟨by omega, by omega, hc⟩
        · rw [sendNonces_cons_send]
          refine List.chain'_cons'.mpr ⟨?_, hcs⟩
          intro y hy
          have hy' : y ∈ sendNonces (portTrace { st with send_nonce := st.send_nonce + 2 } ops) :=
            List.mem_of_mem_head? hy
          have := (hmem _ (mem_of_mem_sendNonces hy')).1 rfl
          omega
        · rw [recvNonces_cons_send]
          exact hcr
    | recv w =>
      have hs := receive_state st w
      show TraceOk _ _ (portTrace st (.recv w :: ops))
      rcases hs with hs | ⟨hs, hlt⟩
      · rw [portTrace, hs, if_neg (by simp), List.nil_append]
        exact ih st
      · rw [portTrace, hs]
        rw [if_pos (by simp)]
        have ih' := ih { st with receive_nonce := st.receive_nonce + 2 }
        rw [show ({ st with receive_nonce := st.receive_nonce + 2 } : PortState).receive_nonce
              = st.receive_nonce + 2 from rfl,
            show ({ st with receive_nonce := st.receive_nonce + 2 } : PortState).send_nonce
              = st.send_nonce from rfl] at ih'
        simp only [List.singleton_append]
        obtain ⟨hmem, hcs, hcr⟩ := ih'
        refine ⟨?_, ?_, ?_⟩
        · intro x hx
          rcases List.mem_cons.mp hx with hx | hx
          · subst hx
            refine ⟨fun htrue => by simp at htrue, fun _ => ⟨le_refl _, rfl, hlt⟩⟩
          · have h2 := hmem x hx
            refine ⟨fun ht => h2.1 ht, fun hf => ?_⟩
            obtain ⟨ha, hb, hc⟩ := h2.2 hf
            exact ⟨by omega, by omega, hc⟩
        · rw [sendNonces_cons_recv]
          exact hcs
        · rw [recvNonces_cons_recv]
          refine List.chain'_cons'.mpr ⟨?_, hcr⟩
          intro y hy
          have hy' : y ∈ recvNonces (portTrace { st with receive_nonce := st.receive_nonce + 2 } ops) :=
            List.mem_of_mem_head? hy
          have := (hmem _ (mem_of_mem_recvNonces hy')).2 rfl
          omega

/-- C1: the claim says each message is framed as an 8-byte big-endian length
followed by ciphertext under a 24-byte nonce whose low 8 bytes are the
counter. The code builds its nonce with `struct.pack(">24xQ", counter)`,
which is 32 bytes (24 zero pad bytes plus the 8-byte counter), and PyNaCl
rejects any nonce that is not exactly `NONCE_SIZE = 24` bytes, so every
`Port.send` and every `Port.receive` raises `ValueError` instead of framing
or checking a message. Evaluated here at a fresh client port sending `b""`
and a fresh server port receiving a 1-byte frame. -/
theorem c1_nonce_built_is_32_bytes_so_every_send_raises :
    (pack24xQ 0).length = 32 ∧ NONCE_SIZE = 24 ∧
    ((Port.init 0 true).send []).2 =
      Except.error (PyExc.valueError "The nonce must be exactly 24 bytes long") ∧
    ((Port.init 0 false).receive (packQ 1 ++ [0])).2 =
      Except.error (PyExc.valueError "The nonce must be exactly 24 bytes long") := by
  exact ⟨pack24xQ_length 0, rfl, rfl, rfl⟩

/-- C2: a client port starts with send counter 0 and receive counter 1 (the
server port swapped); a send (resp. a receive that reaches the nonce) advances
its own counter by exactly 2 and leaves the other unchanged; and over any
sequence of interleaved sends and receives the send nonces are strictly
increasing and even, the receive nonces strictly increasing and odd, so no
send nonce ever repeats or coincides with a receive nonce of the same port. -/
theorem c2_nonce_discipline (k : Nat) (ops : List PortOp) :
    (Port.init k true).send_nonce = 0 ∧ (Port.init k true).receive_nonce = 1 ∧
    (Port.init k false).send_nonce = 1 ∧ (Port.init k false).receive_nonce = 0 ∧
    (∀ st : PortState, ∀ m : Bytes, st.send_nonce < 2 ^ 64 →
      (st.send m).1.send_nonce = st.send_nonce + 2 ∧
      (st.send m).1.receive_nonce = st.receive_nonce) ∧
    (∀ st : PortState, ∀ w : Bytes, st.receive_nonce < 2 ^ 64 →
      unpackQ (w.take 8) + 8 ≤ w.length →
      (st.receive w).1.receive_nonce = st.receive_nonce + 2 ∧
      (st.receive w).1.send_nonce = st.send_nonce) ∧
    List.Chain' (· < ·) (sendNonces (portTrace (Port.init k true) ops)) ∧
    List.Chain' (· < ·) (recvNonces (portTrace (Port.init k true) ops)) ∧
    (∀ n ∈ sendNonces (portTrace (Port.init k true) ops), n % 2 = 0) ∧
    (∀ n ∈ recvNonces (portTrace (Port.init k true) ops), n % 2 = 1) ∧
    (∀ n ∈ sendNonces (portTrace (Port.init k true) ops),
      n ∉ recvNonces (portTrace (Port.init k true) ops)) := by
  have hok := portTrace_ok ops (Port.init k true)
  obtain ⟨hmem, hcs, hcr⟩ := hok
  have hsend : ∀ n ∈ sendNonces (portTrace (Port.init k true) ops), n % 2 = 0 := by
    intro n hn
    have := (hmem _ (mem_of_mem_sendNonces hn)).1 rfl
    simpa [Port.init] using this.2.1
  have hrecv : ∀ n ∈ recvNonces (portTrace (Port.init k true) ops), n % 2 = 1 := by
    intro n hn
    have := (hmem _ (mem_of_mem_recvNonces hn)).2 rfl
    simpa [Port.init] using this.2.1
  refine ⟨rfl, rfl, rfl, rfl, ?_, ?_, hcs, hcr, hsend, hrecv, ?_⟩
  · intro st m hlt
    have hs := send_state st m
    rw [if_neg (by omega)] at hs
    rw [hs]
    exact ⟨rfl, rfl⟩
  · intro st w hlt hw
    have h8 : ¬ w.length < 8 := by omega
    have hrest : ¬ (w.drop 8).length < unpackQ (w.take 8) := by
      rw [List.length_drop]
      omega
    unfold PortState.receive socket_read_fixed
    rw [if_neg h8]
    simp only []
    rw [if_neg hrest]
    simp only []
    rw [if_neg (by omega)]
    cases boxDecrypt st.boxKey ((w.drop 8).take (unpackQ (w.take 8)))
        (pack24xQ st.receive_nonce) <;> exact ⟨rfl, rfl⟩
  · intro n hn hn'
    have h0 := hsend n hn
    have h1 := hrecv n hn'
    omega

/-- Witness for C2 at concrete inputs: one send on a fresh client port moves
the send counter from 0 to 2, and one receive of an 8-byte zero-length frame
moves the receive counter from 1 to 3. -/
theorem c2_nonce_discipline_witness :
    ((Port.init 0 true).send []).1.send_nonce = 0 + 2 ∧
    ((Port.init 0 true).receive (List.replicate 8 0)).1.receive_nonce = 1 + 2 := by
  have h := c2_nonce_discipline 0 []
  exact ⟨(h.2.2.2.2.1 (Port.init 0 true) [] (by decide)).1,
         (h.2.2.2.2.2.1 (Port.init 0 true) (List.replicate 8 0) (by decide) (by decide)).1⟩

/-- C8: the claim expects `receive` on one port to invert the peer port's
`send` over a faithful stream. In the code as written no send ever produces
wire bytes: the nonce handed to the box is 32 bytes, PyNaCl rejects it, and
`Port.send` raises on every message and every state, so the round trip never
yields the sent message. -/
theorem c8_send_never_delivers (st : PortState) (m : Bytes) :
    ∃ e : PyExc, (st.send m).2 = Except.error e := by
  unfold PortState.send
  split
  · exact ⟨_, rfl⟩
  · have hne : (pack24xQ st.send_nonce).length ≠ NONCE_SIZE := by
      rw [pack24xQ_length]
      decide
    simp only [boxEncrypt, hne, ite_true, if_pos hne]
    exact ⟨_, rfl⟩

lemma jpFloat_eq_ok (obj : JVal) (prop : String) (q : Rat) :
    jpFloat obj prop = .ok q ↔ jGet obj prop = some (.float q) := by
  cases obj with
  | dict l =>
    show jpFloat (.dict l) prop = .ok q ↔ jLookup l prop = some (.float q)
    unfold jpFloat json_prop
    cases h : jLookup l prop with
    | none => simp [h]
    | some v => cases v <;> simp [h, isinstance]
  | null => simp [jpFloat, json_prop, jGet]
  | bool b => simp [jpFloat, json_prop, jGet]
  | int n => simp [jpFloat, json_prop, jGet]
  | float q2 => simp [jpFloat, json_prop, jGet]
  | str s => simp [jpFloat, json_prop, jGet]
  | arr l => simp [jpFloat, json_prop, jGet]

lemma jpStr_of_lookup {l : List (String × JVal)} {prop : String} {s : String}
    (h : jLookup l prop = some (.str s)) : jpStr (.dict l) prop = .ok s := by
  simp only [jpStr, json_prop, h, isinstance, if_true]

lemma jpStr_ok_lookup {l : List (String × JVal)} {prop : String} {s : String}
    (h : jpStr (.dict l) prop = .ok s) : jLookup l prop = some (.str s) := by
  simp only [jpStr, json_prop] at h
  cases h2 : jLookup l prop with
  | none => rw [h2] at h; exact absurd h (by simp)
  | some v =>
    rw [h2] at h
    cases v <;> simp [isinstance] at h
    subst h
    rfl

lemma jpInt_of_lookup_int {l : List (String × JVal)} {prop : String} {n : Int}
    (h : jLookup l prop = some (.int n)) : jpInt (.dict l) prop = .ok n := by
  simp [jpInt, json_prop, h, isinstance]

lemma jpBool_of_lookup {l : List (String × JVal)} {prop : String} {b : Bool}
    (h : jLookup l prop = some (.bool b)) : jpBool (.dict l) prop = .ok b := by
  simp [jpBool, json_prop, h, isinstance]

lemma jpList_of_lookup {l : List (String × JVal)} {prop : String} {xs : List JVal}
    (h : jLookup l prop = some (.arr xs)) : jpList (.dict l) prop = .ok xs := by
  simp [jpList, json_prop, h, isinstance]

/-- C3: when the underlying stream ends before a full message is read, the
run does terminate with a single terminal feedback event — but its reason is
the generic "error: eof", not the disconnect reason: `socket_read_fixed`
raises `Exception("eof")` while the disconnect reason is only produced by the
`except EOFError` clause, which nothing in the excerpt ever raises. -/
theorem c3_short_read_gives_error_eof_not_disconnected :
    connRun envC3 =
      RunOutcome.returned [Sent.raw [9]] [Feedback.finished (some "error: eof")] ∧
    handleExc PyExc.eofError = "disconnected" ∧
    handleExc (PyExc.exception "eof") = "error: eof" := by
  exact ⟨rfl, rfl, rfl⟩

/-- C9: `Connection._init` builds `ServerProps` exactly when both
`min_priority` and `num_cpus` decode to JSON floats; a JSON integer (or a
missing key, or any other type) makes `json_prop` raise `ValueError`, since
Python's `int` is not an instance of `float` — evaluated concretely, the
integer 5 is rejected rather than coerced. -/
theorem c9_capabilities_require_json_floats (obj : JVal) :
    ((∃ props, serverPropsOfJson obj = .ok props) ↔
      ((∃ q, jGet obj "min_priority" = some (.float q)) ∧
       (∃ q, jGet obj "num_cpus" = some (.float q)))) ∧
    serverPropsOfJson (.dict [("min_priority", .int 5), ("num_cpus", .float 4)]) =
      .error (.valueError "Member min_priority must have type float; got int") := by
  constructor
  · constructor
    · rintro ⟨props, hp⟩
      unfold serverPropsOfJson at hp
      cases h1 : jpFloat obj "min_priority" with
      | error e => rw [h1] at hp; exact absurd hp (by simp)
      | ok mp =>
        rw [h1] at hp
        cases h2 : jpFloat obj "num_cpus" with
        | error e => rw [h2] at hp; exact absurd hp (by simp)
        | ok nc =>
          exact ⟨⟨mp, (jpFloat_eq_ok obj "min_priority" mp).mp h1⟩,
                 ⟨nc, (jpFloat_eq_ok obj "num_cpus" nc).mp h2⟩⟩
    · rintro ⟨⟨mp, h1⟩, ⟨nc, h2⟩⟩
      refine ⟨⟨mp, nc⟩, ?_⟩
      unfold serverPropsOfJson
      rw [(jpFloat_eq_ok obj "min_priority" mp).mpr h1,
          (jpFloat_eq_ok obj "num_cpus" nc).mpr h2]
  · rfl

/-- C4 counterexample: the claim says a normal exit of the steady-state loop
requires the sending-finished flag to be set (sentinel pulled, finish
message sent). In `envC4` the server sends `finish` on the loop's first
iteration while the client still holds a work task: the run exits normally
(terminal `Finished` with no reason) yet the client never sent the finish
message nor half-closed the stream. -/
theorem c4_counterexample_normal_exit_with_flag_unset :
    connRun envC4 = RunOutcome.returned
      [Sent.raw [7], Sent.json (initObj 5 []), Sent.json (workMsg 0 1)]
      [Feedback.needMoreWork, Feedback.finished none] ∧
    ([Sent.raw [7], Sent.json (initObj 5 []), Sent.json (workMsg 0 1)].all
      (fun x => !isFinishSent x)) = true := by
  exact ⟨rfl, rfl⟩
lemma dispatchMsg_length {env : ConnEnv} {msg : List (String × JVal)}
    {rest : List Bytes} {evt : Feedback} {rest' : List Bytes}
    (h : dispatchMsg env msg rest = .emit evt rest') : rest'.length ≤ rest.length := by
  unfold dispatchMsg at h
  repeat' split at h
  all_goals cases h
  all_goals (try simp only [List.length_cons])
  all_goals omega

lemma steadyLoopF_fuel (env : ConnEnv) :
    ∀ (n m : Nat) (finished : Bool) (ts : List TaskM) (inc : List Bytes)
      (sent : List Sent) (fb : List Feedback), inc.length < n → inc.length < m →
      steadyLoopF env n finished ts inc sent fb =
        steadyLoopF env m finished ts inc sent fb := by
  intro n
  induction n with
  | zero => intro m finished ts inc sent fb h1 h2; exact absurd h1 (Nat.not_lt_zero _)
  | succ n ih =>
    intro m finished ts inc sent fb h1 h2
    cases m with
    | zero => exact absurd h2 (Nat.not_lt_zero _)
    | succ m =>
      rcases htask : taskStep finished ts sent with _ | ⟨fin', ts', sent'⟩
      · simp only [steadyLoopF, htask]
      · cases inc with
        | nil => simp only [steadyLoopF, htask]
        | cons b rest =>
          rcases hdec : env.decode b with _ | v
          · simp only [steadyLoopF, htask, hdec]
          · cases v with
            | dict msg =>
              rcases hd : dispatchMsg env msg rest with _ | ⟨evt, rest'⟩ | e
              · simp only [steadyLoopF, htask, hdec, hd]
              · simp only [steadyLoopF, htask, hdec, hd]
                have hlen := dispatchMsg_length hd
                simp only [List.length_cons] at h1 h2
                exact ih m fin' ts' rest' sent' (fb ++ [evt]) (by omega) (by omega)
              · simp only [steadyLoopF, htask, hdec, hd]
            | null => simp only [steadyLoopF, htask, hdec]
            | bool x => simp only [steadyLoopF, htask, hdec]
            | int x => simp only [steadyLoopF, htask, hdec]
            | float x => simp only [steadyLoopF, htask, hdec]
            | str x => simp only [steadyLoopF, htask, hdec]
            | arr x => simp only [steadyLoopF, htask, hdec]

lemma steadyLoop_blocked {finished : Bool} {ts : List TaskM} {sent : List Sent}
    (env : ConnEnv) (inc : List Bytes) (fb : List Feedback)
    (h : taskStep finished ts sent = none) :
    steadyLoop env finished ts inc sent fb = (sent, fb, .blocked) := by
  unfold steadyLoop
  cases inc <;> simp only [steadyLoopF, h]

lemma steadyLoop_eof {finished : Bool} {ts : List TaskM} {sent : List Sent}
    {fin' : Bool} {ts' : List TaskM} {sent' : List Sent}
    (env : ConnEnv) (fb : List Feedback)
    (h : taskStep finished ts sent = some (fin', ts', sent')) :
    steadyLoop env finished ts [] sent fb =
      (sent', fb, .raise (.exception "eof")) := by
  unfold steadyLoop
  simp only [steadyLoopF, h]

lemma steadyLoop_badjson {finished : Bool} {ts : List TaskM} {sent : List Sent}
    {fin' : Bool} {ts' : List TaskM} {sent' : List Sent} {b : Bytes}
    (env : ConnEnv) (rest : List Bytes) (fb : List Feedback)
    (h : taskStep finished ts sent = some (fin', ts', sent'))
    (hdec : env.decode b = none) :
    steadyLoop env finished ts (b :: rest) sent fb =
      (sent', fb, .raise (.valueError "json.JSONDecodeError")) := by
  unfold steadyLoop
  simp only [steadyLoopF, h, hdec]

lemma steadyLoop_nondict {finished : Bool} {ts : List TaskM} {sent : List Sent}
    {fin' : Bool} {ts' : List TaskM} {sent' : List Sent} {b : Bytes} {v : JVal}
    (env : ConnEnv) (rest : List Bytes) (fb : List Feedback)
    (h : taskStep finished ts sent = some (fin', ts', sent'))
    (hdec : env.decode b = some v) (hv : ∀ d, v ≠ .dict d) :
    steadyLoop env finished ts (b :: rest) sent fb =
      (sent', fb, .raise (.valueError "Top-level JSON value must be a dictionary")) := by
  unfold steadyLoop
  cases v with
  | dict d => exact absurd rfl (hv d)
  | null => simp only [steadyLoopF, h, hdec]
  | bool x => simp only [steadyLoopF, h, hdec]
  | int x => simp only [steadyLoopF, h, hdec]
  | float x => simp only [steadyLoopF, h, hdec]
  | str x => simp only [steadyLoopF, h, hdec]
  | arr x => simp only [steadyLoopF, h, hdec]

lemma steadyLoop_finish {finished : Bool} {ts : List TaskM} {sent : List Sent}
    {fin' : Bool} {ts' : List TaskM} {sent' : List Sent} {b : Bytes}
    {msg : List (String × JVal)}
    (env : ConnEnv) (rest : List Bytes) (fb : List Feedback)
    (h : taskStep finished ts sent = some (fin', ts', sent'))
    (hdec : env.decode b = some (.dict msg))
    (hd : dispatchMsg env msg rest = .finish) :
    steadyLoop env finished ts (b :: rest) sent fb = (sent', fb, .ret none) := by
  unfold steadyLoop
  simp only [steadyLoopF, h, hdec, hd]

lemma steadyLoop_err {finished : Bool} {ts : List TaskM} {sent : List Sent}
    {fin' : Bool} {ts' : List TaskM} {sent' : List Sent} {b : Bytes}
    {msg : List (String × JVal)} {e : PyExc}
    (env : ConnEnv) (rest : List Bytes) (fb : List Feedback)
    (h : taskStep finished ts sent = some (fin', ts', sent'))
    (hdec : env.decode b = some (.dict msg))
    (hd : dispatchMsg env msg rest = .err e) :
    steadyLoop env finished ts (b :: rest) sent fb = (sent', fb, .raise e) := by
  unfold steadyLoop
  simp only [steadyLoopF, h, hdec, hd]

lemma steadyLoop_emit {finished : Bool} {ts : List TaskM} {sent : List Sent}
    {fin' : Bool} {ts' : List TaskM} {sent' : List Sent} {b : Bytes}
    {msg : List (String × JVal)} {evt : Feedback} {rest' : List Bytes}
    (env : ConnEnv) (rest : List Bytes) (fb : List Feedback)
    (h : taskStep finished ts sent = some (fin', ts', sent'))
    (hdec : env.decode b = some (.dict msg))
    (hd : dispatchMsg env msg rest = .emit evt rest') :
    steadyLoop env finished ts (b :: rest) sent fb =
      steadyLoop env fin' ts' rest' sent' (fb ++ [evt]) := by
  unfold steadyLoop
  simp only [steadyLoopF, h, hdec, hd]
  have hlen := dispatchMsg_length hd
  exact steadyLoopF_fuel env (b :: rest).length (rest'.length + 1)
    fin' ts' rest' sent' (fb ++ [evt]) (by simp only [List.length_cons]; omega)
    (by omega)

lemma taskStep_sent {finished : Bool} {ts : List TaskM} {sent : List Sent}
    {fin' : Bool} {ts' : List TaskM} {sent' : List Sent}
    (h : taskStep finished ts sent = some (fin', ts', sent')) :
    ∃ γ, sent' = sent ++ γ := by
  cases finished with
  | true =>
    rw [show taskStep true ts sent = some (true, ts, sent) from rfl] at h
    cases h
    exact ⟨[], by simp⟩
  | false =>
    cases ts with
    | nil => exact absurd h (by simp [taskStep])
    | cons t ts2 =>
      cases t with
      | finishedSentinel =>
        rw [show taskStep false (TaskM.finishedSentinel :: ts2) sent =
          some (true, ts2, sent ++ [Sent.json finishMsg, Sent.shutdownWr]) from rfl] at h
        cases h
        exact ⟨[Sent.json finishMsg, Sent.shutdownWr], rfl⟩
      | work p s =>
        rw [show taskStep false (TaskM.work p s :: ts2) sent =
          some (false, ts2, sent ++ [Sent.json (workMsg p s)]) from rfl] at h
        cases h
        exact ⟨[Sent.json (workMsg p s)], rfl⟩

lemma dispatchMsg_emit_not_finished {env : ConnEnv} {msg : List (String × JVal)}
    {rest : List Bytes} {evt : Feedback} {rest' : List Bytes}
    (h : dispatchMsg env msg rest = .emit evt rest') :
    ∀ r, evt ≠ Feedback.finished r := by
  unfold dispatchMsg at h
  repeat' split at h
  all_goals cases h
  all_goals intro r
  all_goals simp

lemma dispatchMsg_finish_lookup {env : ConnEnv} {msg : List (String × JVal)}
    {rest : List Bytes} (h : dispatchMsg env msg rest = .finish) :
    jLookup msg "type" = some (.str "finish") := by
  unfold dispatchMsg at h
  split at h
  · exact absurd h (by simp)
  · rename_i mt heq
    split at h
    · rename_i hmt
      subst hmt
      exact jpStr_ok_lookup heq
    · split at h
      · exact absurd h (by simp)
      · split at h
        · repeat' split at h
          all_goals cases h
        · exact absurd h (by simp)

lemma steadyLoop_delta (env : ConnEnv) :
    ∀ (n : Nat) (inc : List Bytes) (finished : Bool) (ts : List TaskM)
      (sent : List Sent) (fb : List Feedback), inc.length ≤ n →
      ∃ γ δ, (steadyLoop env finished ts inc sent fb).1 = sent ++ γ ∧
        (steadyLoop env finished ts inc sent fb).2.1 = fb ++ δ ∧
        ∀ x ∈ δ, ∀ r, x ≠ Feedback.finished r := by
  intro n
  induction n with
  | zero =>
    intro inc finished ts sent fb hlen
    have hinc : inc = [] := List.length_eq_zero.mp (Nat.le_zero.mp hlen)
    subst hinc
    rcases htask : taskStep finished ts sent with _ | ⟨fin', ts', sent'⟩
    · rw [steadyLoop_blocked env [] fb htask]
      exact ⟨[], [], by simp, by simp, by simp⟩
    · obtain ⟨γ0, hγ0⟩ := taskStep_sent htask
      rw [steadyLoop_eof env fb htask]
      exact ⟨γ0, [], by simp [hγ0], by simp, by simp⟩
  | succ n ih =>
    intro inc finished ts sent fb hlen
    rcases htask : taskStep finished ts sent with _ | ⟨fin', ts', sent'⟩
    · rw [steadyLoop_blocked env inc fb htask]
      exact ⟨[], [], by simp, by simp, by simp⟩
    · obtain ⟨γ0, hγ0⟩ := taskStep_sent htask
      cases inc with
      | nil =>
        rw [steadyLoop_eof env fb htask]
        exact ⟨γ0, [], by simp [hγ0], by simp, by simp⟩
      | cons b rest =>
        rcases hdec : env.decode b with _ | v
        · rw [steadyLoop_badjson env rest fb htask hdec]
          exact ⟨γ0, [], by simp [hγ0], by simp, by simp⟩
        · by_cases hv : ∃ d, v = JVal.dict d
          · obtain ⟨msg, rfl⟩ := hv
            rcases hd : dispatchMsg env msg rest with _ | ⟨evt, rest'⟩ | e
            · rw [steadyLoop_finish env rest fb htask hdec hd]
              exact ⟨γ0, [], by simp [hγ0], by simp, by simp⟩
            · rw [steadyLoop_emit env rest fb htask hdec hd]
              have hlen2 : rest'.length ≤ n := by
                have := dispatchMsg_length hd
                simp only [List.length_cons] at hlen
                omega
              obtain ⟨γ', δ', hγ', hδ', hnf⟩ :=
                ih rest' fin' ts' sent' (fb ++ [evt]) hlen2
              refine ⟨γ0 ++ γ', evt :: δ', ?_, ?_, ?_⟩
              · rw [hγ', hγ0, List.append_assoc]
              · rw [hδ']
                simp
              · intro x hx r
                rcases List.mem_cons.mp hx with hx | hx
                · subst hx
                  exact dispatchMsg_emit_not_finished hd r
                · exact hnf x hx r
            · rw [steadyLoop_err env rest fb htask hdec hd]
              exact ⟨γ0, [], by simp [hγ0], by simp, by simp⟩
          · have hv' : ∀ d, v ≠ JVal.dict d := by
              intro d hdd
              exact hv ⟨d, hdd⟩
            rw [steadyLoop_nondict env rest fb htask hdec hv']
            exact ⟨γ0, [], by simp [hγ0], by simp, by simp⟩

lemma dispatchMsg_emit_subset {env : ConnEnv} {msg : List (String × JVal)}
    {rest : List Bytes} {evt : Feedback} {rest' : List Bytes}
    (h : dispatchMsg env msg rest = .emit evt rest') : ∀ x ∈ rest', x ∈ rest := by
  unfold dispatchMsg at h
  repeat' split at h
  all_goals cases h
  all_goals first
  | exact fun x hx => hx
  | exact fun x hx => List.mem_cons_of_mem _ hx

lemma steadyLoop_ret_none (env : ConnEnv) :
    ∀ (n : Nat) (inc : List Bytes) (finished : Bool) (ts : List TaskM)
      (sent : List Sent) (fb : List Feedback), inc.length ≤ n →
      (steadyLoop env finished ts inc sent fb).2.2 = BodyRes.ret none →
      ∃ b ∈ inc, ∃ d, env.decode b = some (.dict d) ∧
        jLookup d "type" = some (.str "finish") := by
  intro n
  induction n with
  | zero =>
    intro inc finished ts sent fb hlen hres
    have hinc : inc = [] := List.length_eq_zero.mp (Nat.le_zero.mp hlen)
    subst hinc
    rcases htask : taskStep finished ts sent with _ | ⟨fin', ts', sent'⟩
    · rw [steadyLoop_blocked env [] fb htask] at hres
      exact absurd hres (by simp)
    · rw [steadyLoop_eof env fb htask] at hres
      exact absurd hres (by simp)
  | succ n ih =>
    intro inc finished ts sent fb hlen hres
    rcases htask : taskStep finished ts sent with _ | ⟨fin', ts', sent'⟩
    · rw [steadyLoop_blocked env inc fb htask] at hres
      exact absurd hres (by simp)
    · cases inc with
      | nil =>
        rw [steadyLoop_eof env fb htask] at hres
        exact absurd hres (by simp)
      | cons b rest =>
        rcases hdec : env.decode b with _ | v
        · rw [steadyLoop_badjson env rest fb htask hdec] at hres
          exact absurd hres (by simp)
        · by_cases hv : ∃ d, v = JVal.dict d
          · obtain ⟨msg, rfl⟩ := hv
            rcases hd : dispatchMsg env msg rest with _ | ⟨evt, rest'⟩ | e
            · exact ⟨b, List.mem_cons_self b rest, msg, hdec,
                dispatchMsg_finish_lookup hd⟩
            · rw [steadyLoop_emit env rest fb htask hdec hd] at hres
              have hlen2 : rest'.length ≤ n := by
                have := dispatchMsg_length hd
                simp only [List.length_cons] at hlen
                omega
              obtain ⟨b2, hb2, d, hdec2, hty2⟩ :=
                ih rest' fin' ts' sent' (fb ++ [evt]) hlen2 hres
              exact ⟨b2, List.mem_cons_of_mem _ (dispatchMsg_emit_subset hd b2 hb2),
                d, hdec2, hty2⟩
            · rw [steadyLoop_err env rest fb htask hdec hd] at hres
              exact absurd hres (by simp)
          · have hv' : ∀ d, v ≠ JVal.dict d := by
              intro d hdd
              exact hv ⟨d, hdd⟩
            rw [steadyLoop_nondict env rest fb htask hdec hv'] at hres
            exact absurd hres (by simp)

/-- C4 amended: a normal exit of the steady-state loop happens only via a
received `"finish"` message — some delivered message decodes to a dictionary
whose `"type"` is `"finish"` — but the sending-finished flag need not be set
when it happens: the loop breaks on `"finish"` unconditionally (see the
counterexample, where the flag is still false and no finish message or
half-close was ever sent). -/
theorem c4_amended_normal_exit_only_via_finish (env : ConnEnv) (inc : List Bytes)
    (finished : Bool) (ts : List TaskM) (sent : List Sent) (fb : List Feedback)
    (h : (steadyLoop env finished ts inc sent fb).2.2 = BodyRes.ret none) :
    ∃ b ∈ inc, ∃ d, env.decode b = some (.dict d) ∧
      jLookup d "type" = some (.str "finish") :=
  steadyLoop_ret_none env inc.length inc finished ts sent fb (le_refl _) h

/-- Witness for the amended C4 at a concrete input: a loop whose stream
delivers one finish message exits normally, and that message is found. -/
theorem c4_amended_witness :
    ∃ b ∈ ([[2]] : List Bytes), ∃ d, envC4.decode b = some (.dict d) ∧
      jLookup d "type" = some (.str "finish") :=
  c4_amended_normal_exit_only_via_finish envC4 [[2]] true [] [] [] rfl

/-- C10: in the `"result"` branch of the main loop, exactly one additional
raw message is received — and decompressed and decoded into the outcome's
source — precisely when `msg.get("has_source") == True` (Python equality, so
`1` and `1.0` also qualify via `pyEqTrue`); with the field absent or any
non-equal value no extra receive occurs and the outcome is built with source
`None`. Stated both on the dispatch of the message and on the loop itself:
the continuation consumes `rest2` (one extra message) versus `rest` (none). -/
theorem c10_has_source_gates_extra_receive (env : ConnEnv) (finished : Bool)
    (ts : List TaskM) (sent : List Sent) (fb : List Feedback)
    (fin' : Bool) (ts' : List TaskM) (sent' : List Sent)
    (b : Bytes) (rest : List Bytes) (msg : List (String × JVal)) (i : Int)
    (htask : taskStep finished ts sent = some (fin', ts', sent'))
    (hdec : env.decode b = some (.dict msg))
    (hty : jLookup msg "type" = some (.str "result"))
    (hidx : jLookup msg "permuter" = some (.int i)) :
    (pyEqTrue (jLookup msg "has_source") = false →
      ∀ r, _result_from_json msg none = .ok r →
        dispatchMsg env msg rest = .emit (.workDone i r) rest ∧
        steadyLoop env finished ts (b :: rest) sent fb =
          steadyLoop env fin' ts' rest sent' (fb ++ [.workDone i r])) ∧
    (pyEqTrue (jLookup msg "has_source") = true →
      ∀ b2 rest2 src r, rest = b2 :: rest2 → env.decompress b2 = some src →
        _result_from_json msg (some src) = .ok r →
        dispatchMsg env msg rest = .emit (.workDone i r) rest2 ∧
        steadyLoop env finished ts (b :: rest) sent fb =
          steadyLoop env fin' ts' rest2 sent' (fb ++ [.workDone i r])) := by
  constructor
  · intro hsrc r hres
    have hdisp : dispatchMsg env msg rest = .emit (.workDone i r) rest := by
      unfold dispatchMsg
      rw [jpStr_of_lookup hty]
      simp only [jpInt_of_lookup_int hidx, hsrc, hres]
      simp
    exact ⟨hdisp, steadyLoop_emit env rest fb htask hdec hdisp⟩
  · intro hsrc b2 rest2 src r hrest hdc hres
    subst hrest
    have hdisp : dispatchMsg env msg (b2 :: rest2) = .emit (.workDone i r) rest2 := by
      unfold dispatchMsg
      rw [jpStr_of_lookup hty]
      simp only [jpInt_of_lookup_int hidx, hsrc, hdc, hres]
      simp
    exact ⟨hdisp, steadyLoop_emit env (b2 :: rest2) fb htask hdec hdisp⟩

/-- Witness for C10 at concrete inputs: a result message without
`has_source` consumes no extra message and yields a source-less outcome; one
with `has_source: true` consumes exactly one extra message whose
decompression becomes the outcome's source. -/
theorem c10_witness :
    steadyLoop envC10 true [] [[0]] [] [] =
      steadyLoop envC10 true [] [] [] [Feedback.workDone 0 (.candidate 7 "h" none [])] ∧
    steadyLoop envC10 true [] [[1], [9]] [] [] =
      steadyLoop envC10 true [] [] []
        [Feedback.workDone 0 (.candidate 7 "h" (some "src") [])] := by
  constructor
  · exact ((c10_has_source_gates_extra_receive envC10 true [] [] [] true [] []
      [0] [] msgC10 0 rfl rfl rfl rfl).1 rfl (.candidate 7 "h" none []) rfl).2
  · exact ((c10_has_source_gates_extra_receive envC10 true [] [] [] true [] []
      [1] [[9]] msgC10s 0 rfl rfl rfl rfl).2 rfl [9] [] "src"
      (.candidate 7 "h" (some "src") []) rfl rfl rfl).2

lemma validateBases_canon (ps : List PortablePermuter) :
    ∀ shs : List (Int × String), ps.length = shs.length →
      (((validateBases ps (canonBases shs)).2 ≠ none) ↔
        ∃ pr ∈ ps.zip shs, pr.2.1 ≠ pr.1.base_score) ∧
      ((∀ pr ∈ ps.zip shs, pr.2.1 = pr.1.base_score) →
        validateBases ps (canonBases shs) =
          ((ps.zip shs).filterMap (fun pr =>
            if pr.2.2 ≠ pr.1.base_hash then
              some (Feedback.message "note: mismatching hash")
            else none), none)) := by
  induction ps with
  | nil =>
    intro shs hlen
    have hshs : shs = [] := by
      cases shs with
      | nil => rfl
      | cons a b => simp at hlen
    subst hshs
    constructor
    · simp [validateBases, canonBases]
    · intro _
      simp [validateBases, canonBases]
  | cons p ps ih =>
    intro shs hlen
    cases shs with
    | nil => simp at hlen
    | cons sh shs2 =>
      have hlen2 : ps.length = shs2.length := by simpa using hlen
      obtain ⟨ih1, ih2⟩ := ih shs2 hlen2
      have hstep : validateBases (p :: ps) (canonBases (sh :: shs2)) =
          (if sh.1 ≠ p.base_score then
            ([], some (.valueError ("mismatching base score! (" ++
              toString sh.1 ++ " instead of " ++ toString p.base_score ++ ")")))
          else
            ((if sh.2 ≠ p.base_hash then [Feedback.message "note: mismatching hash"]
              else []) ++ (validateBases ps (canonBases shs2)).1,
             (validateBases ps (canonBases shs2)).2)) := rfl
      constructor
      · rw [hstep]
        by_cases hs : sh.1 ≠ p.base_score
        · rw [if_pos hs]
          constructor
          · intro _
            exact ⟨(p, sh), by simp, hs⟩
          · intro _
            simp
        · rw [if_neg hs]
          push_neg at hs
          constructor
          · intro h2
            obtain ⟨pr, hpr, hne⟩ := ih1.mp h2
            exact ⟨pr, by simp [List.mem_cons, hpr], hne⟩
          · rintro ⟨pr, hpr, hne⟩
            rcases List.mem_cons.mp (by simpa using hpr) with hpr2 | hpr2
            · subst hpr2
              exact absurd hs hne
            · exact ih1.mpr ⟨pr, hpr2, hne⟩
      · intro hall
        rw [hstep]
        have hs : ¬ sh.1 ≠ p.base_score := by
          have := hall (p, sh) (by simp)
          simpa using this
        rw [if_neg hs]
        have hall2 : ∀ pr ∈ ps.zip shs2, pr.2.1 = pr.1.base_score := by
          intro pr hpr
          exact hall pr (by simp [List.mem_cons, hpr])
        rw [ih2 hall2]
        by_cases hh : sh.2 ≠ p.base_hash
        · simp [List.filterMap_cons, hh]
        · simp [List.filterMap_cons, hh]

/-- C6: during baseline validation over well-formed `perm_bases` entries,
the session aborts (the validation loop raises, so the run never reaches the
ready signal or the main loop) exactly when some descriptor's reported
`base_score` differs from the local one; when all scores match, validation
succeeds and emits exactly one informational note per descriptor whose
`base_hash` differs, and none for matching descriptors. The two closed
conjuncts run the spec's baseline-gate scenarios end to end: reported score
99 against local 100 ends the session with the baseline-divergence reason
and no `NeedMoreWork` or work sent; matching score with hash "xyz" against
"abc" proceeds into the main loop with exactly one note. -/
theorem c6_baseline_gate (ps : List PortablePermuter) (shs : List (Int × String))
    (hlen : ps.length = shs.length) :
    (((validateBases ps (canonBases shs)).2 ≠ none) ↔
      ∃ pr ∈ ps.zip shs, pr.2.1 ≠ pr.1.base_score) ∧
    ((∀ pr ∈ ps.zip shs, pr.2.1 = pr.1.base_score) →
      validateBases ps (canonBases shs) =
        ((ps.zip shs).filterMap (fun pr =>
          if pr.2.2 ≠ pr.1.base_hash then
            some (Feedback.message "note: mismatching hash")
          else none), none)) ∧
    connRun envC6bad = RunOutcome.returned
      [Sent.raw [7], Sent.json (initObj 5 [permC6]), Sent.raw [1], Sent.raw [2]]
      [Feedback.finished (some "error: mismatching base score! (99 instead of 100)")] ∧
    connRun envC6hash = RunOutcome.returned
      [Sent.raw [7], Sent.json (initObj 5 [permC6]), Sent.raw [1], Sent.raw [2],
        Sent.json finishMsg, Sent.shutdownWr]
      [Feedback.message "note: mismatching hash", Feedback.needMoreWork,
        Feedback.finished (some "error: eof")] := by
  obtain ⟨h1, h2⟩ := validateBases_canon ps shs hlen
  exact ⟨h1, h2, rfl, rfl⟩

/-- Witness for C6 at a concrete input: one descriptor with matching score
and mismatching hash yields exactly one note and no abort. -/
theorem c6_baseline_gate_witness :
    ((validateBases [permC6] (canonBases [(100, "xyz")])).2 ≠ none ↔
      ∃ pr ∈ [permC6].zip [((100 : Int), "xyz")], pr.2.1 ≠ pr.1.base_score) ∧
    validateBases [permC6] (canonBases [(100, "xyz")]) =
      ([Feedback.message "note: mismatching hash"], none) := by
  have h := c6_baseline_gate [permC6] [(100, "xyz")] rfl
  refine ⟨h.1, ?_⟩
  have h2 := h.2.1 (by decide)
  rw [h2]
  rfl

lemma validateBases_notes (ps : List PortablePermuter) :
    ∀ bs, ∀ x ∈ (validateBases ps bs).1,
      x = Feedback.message "note: mismatching hash" := by
  induction ps with
  | nil =>
    intro bs x hx
    cases bs <;> simp [validateBases] at hx
  | cons p ps ih =>
    intro bs x hx
    cases bs with
    | nil => simp [validateBases] at hx
    | cons base bs2 =>
      unfold validateBases at hx
      repeat' split at hx
      all_goals try (simp at hx)
      all_goals first
      | (rcases hx with hx2 | hx2
         · exact hx2
         · exact ih bs2 x hx2)
      | exact ih bs2 x hx

lemma validateBases_notes2 {ps : List PortablePermuter}
    {bs : List (List (String × JVal))} {notes : List Feedback} {err : Option PyExc}
    (h : validateBases ps bs = (notes, err)) :
    ∀ x ∈ notes, x = Feedback.message "note: mismatching hash" := by
  intro x hx
  exact validateBases_notes ps bs x (by rw [h]; exact hx)

lemma connRunRest_shape (env : ConnEnv) (sent2 : List Sent) (inc1 : List Bytes)
    {s : List Sent} {fb : List Feedback} {res : BodyRes}
    (h : connRunRest env sent2 inc1 = (s, fb, res)) :
    (∃ γ, s = sent2 ++ γ) ∧ (∀ x ∈ fb, ∀ r, x ≠ Feedback.finished r) := by
  unfold connRunRest at h
  rcases h1 : recvJson env.decode inc1 with e | ⟨msg, inc2⟩ <;> simp only [h1] at h
  · cases h
    exact ⟨⟨[], by simp⟩, by simp⟩
  · rcases h2 : jpBool (.dict msg) "success" with e | success <;> simp only [h2] at h
    · cases h
      exact ⟨⟨[], by simp⟩, by simp⟩
    · by_cases h3 : success = false
      · rw [if_pos h3] at h
        rcases h4 : jpStr (.dict msg) "error" with e | error <;> simp only [h4] at h <;>
          cases h <;> exact ⟨⟨[], by simp⟩, by simp⟩
      · rw [if_neg h3] at h
        rcases h5 : jpList (.dict msg) "perm_bases" with e | bl <;> simp only [h5] at h
        · cases h
          exact ⟨⟨[], by simp⟩, by simp⟩
        · rcases h6 : json_array bl with e | bases <;> simp only [h6] at h
          · cases h
            exact ⟨⟨[], by simp⟩, by simp⟩
          · by_cases h7 : bases.length ≠ env.permuters.length
            · rw [if_pos h7] at h
              cases h
              exact ⟨⟨[], by simp⟩, by simp⟩
            · rw [if_neg h7] at h
              rcases h8 : validateBases env.permuters bases with ⟨notes, err⟩
              cases err with
              | some e =>
                rw [h8] at h
                simp only [] at h
                cases h
                refine ⟨⟨[], by simp⟩, ?_⟩
                intro x hx r
                rw [validateBases_notes2 h8 x hx]
                simp
              | none =>
                rw [h8] at h
                simp only [] at h
                obtain ⟨γ, δ, hγ, hδ, hnf⟩ := steadyLoop_delta env inc2.length inc2
                  false env.tasks sent2 (notes ++ [Feedback.needMoreWork]) (le_refl _)
                rw [h] at hγ hδ
                refine ⟨⟨γ, hγ⟩, ?_⟩
                intro x hx r
                rw [show fb = (notes ++ [Feedback.needMoreWork]) ++ δ from hδ] at hx
                rcases List.mem_append.mp hx with hx2 | hx2
                · rcases List.mem_append.mp hx2 with hx3 | hx3
                  · rw [validateBases_notes2 h8 x hx3]
                    simp
                  · simp at hx3
                    subst hx3
                    simp
                · exact hnf x hx2 r

lemma connRunBody_shape (env : ConnEnv) {s : List Sent} {fb : List Feedback}
    {res : BodyRes} (h : connRunBody env = (s, fb, res)) :
    ∀ x ∈ fb, ∀ r, x ≠ Feedback.finished r := by
  unfold connRunBody at h
  rcases h1 : env.setupErr with _ | e <;> simp only [h1] at h
  · rcases h2 : env.inc with _ | ⟨b0, inc1⟩ <;> simp only [h2] at h
    · cases h
      simp
    · rcases h3 : env.decode b0 with _ | obj <;> simp only [h3] at h
      · cases h
        simp
      · rcases h4 : serverPropsOfJson obj with e | props <;> simp only [h4] at h
        · cases h
          simp
        · by_cases h5 : env.priority < props.min_priority
          · rw [if_pos h5] at h
            cases h
            simp
          · rw [if_neg h5] at h
            exact (connRunRest_shape env _ _ h).2
  · cases h
    simp

/-- C7: whenever `Connection.run` returns, its feedback ends with exactly
one terminal `Finished` event and no other `Finished` ever precedes it — so
every `WorkDone`, `NeedMoreWork` and note precedes the terminal event — and
the terminal reason is `none` exactly on a clean exit of the try-block and
the except-clause text when the body raised; no exception escapes `run`
(every raise of the body is converted by the handlers into a reason). -/
theorem c7_single_terminal_feedback (env : ConnEnv) (s : List Sent)
    (fb : List Feedback) (h : connRun env = RunOutcome.returned s fb) :
    ∃ pre r, fb = pre ++ [Feedback.finished r] ∧
      (∀ x ∈ pre, ∀ r2, x ≠ Feedback.finished r2) ∧
      ((connRunBody env).2.2 = BodyRes.ret none → r = none) ∧
      (∀ e, (connRunBody env).2.2 = BodyRes.raise e → r = some (handleExc e)) := by
  unfold connRun at h
  rcases hb : connRunBody env with ⟨s0, fb0, res⟩
  rw [hb] at h
  cases res with
  | blocked =>
    simp only [] at h
    cases h
  | ret r0 =>
    simp only [] at h
    cases h
    refine ⟨fb0, r0, rfl, ?_, ?_, ?_⟩
    · intro x hx r2
      exact connRunBody_shape env hb x hx r2
    · intro hret
      simp only [] at hret
      cases hret
      rfl
    · intro e hraise
      simp only [] at hraise
      cases hraise
  | raise e0 =>
    simp only [] at h
    cases h
    refine ⟨fb0, some (handleExc e0), rfl, ?_, ?_, ?_⟩
    · intro x hx r2
      exact connRunBody_shape env hb x hx r2
    · intro hret
      simp only [] at hret
      cases hret
    · intro e hraise
      simp only [] at hraise
      cases hraise
      rfl

/-- Witness for C7 at a concrete input: a session whose stream ends at once
returns with the single terminal event carrying the textual reason. -/
theorem c7_single_terminal_feedback_witness :
    ∃ pre r,
      [Feedback.finished (some "error: eof")] = pre ++ [Feedback.finished r] ∧
      (∀ x ∈ pre, ∀ r2, x ≠ Feedback.finished r2) ∧
      ((connRunBody envC7).2.2 = BodyRes.ret none → r = none) ∧
      (∀ e, (connRunBody envC7).2.2 = BodyRes.raise e → r = some (handleExc e)) :=
  c7_single_terminal_feedback envC7 [Sent.raw [5]]
    [Feedback.finished (some "error: eof")] rfl

/-- C5: after the capabilities message is received and decoded, a caller
priority strictly below the server's `min_priority` ends the run right
there: the only send of the whole session is the grant (no descriptor
metadata, no blobs, no work message) and the single terminal feedback event
carries the declined ("skipping") reason. With priority at least
`min_priority`, the session proceeds to descriptor transfer: the metadata
message and every per-descriptor blob are sent. -/
theorem c5_priority_gate (env : ConnEnv) (b0 : Bytes) (rest : List Bytes)
    (caps : List (String × JVal)) (mp nc : Rat)
    (hsetup : env.setupErr = none) (hinc : env.inc = b0 :: rest)
    (hdec : env.decode b0 = some (.dict caps))
    (hmp : jLookup caps "min_priority" = some (.float mp))
    (hnc : jLookup caps "num_cpus" = some (.float nc)) :
    (env.priority < mp →
      connRun env = RunOutcome.returned [Sent.raw env.grant]
        [Feedback.finished
          (some ("skipping due to priority requirement " ++ pyStrFloat mp))]) ∧
    (mp ≤ env.priority →
      ∃ more, (connRunBody env).1 =
        [Sent.raw env.grant, Sent.json (initObj env.priority env.permuters)] ++
          permuterBlobs env.permuters ++ more) := by
  have hprops : serverPropsOfJson (.dict caps) = .ok ⟨mp, nc⟩ := by
    unfold serverPropsOfJson
    rw [(jpFloat_eq_ok (.dict caps) "min_priority" mp).mpr hmp,
        (jpFloat_eq_ok (.dict caps) "num_cpus" nc).mpr hnc]
  constructor
  · intro hlt
    unfold connRun connRunBody
    simp only [hsetup, hinc, hdec, hprops]
    rw [if_pos hlt]
    rfl
  · intro hge
    unfold connRunBody
    simp only [hsetup, hinc, hdec, hprops]
    rw [if_neg (not_lt.mpr hge)]
    rcases hcr : connRunRest env
      ([Sent.raw env.grant, Sent.json (initObj env.priority env.permuters)] ++
        permuterBlobs env.permuters) rest with ⟨s, fb, res⟩
    obtain ⟨⟨γ, hγ⟩, -⟩ := connRunRest_shape env _ _ hcr
    refine ⟨γ, ?_⟩
    rw [show ((s, fb, res) : List Sent × List Feedback × BodyRes).1 = s from rfl, hγ,
      List.append_assoc]

/-- Witness for C5 at a concrete input: caller priority 3 against server
minimum 5 declines with the skipping reason and sends only the grant. -/
theorem c5_priority_gate_witness :
    connRun envC5w = RunOutcome.returned [Sent.raw [7]]
      [Feedback.finished
        (some ("skipping due to priority requirement " ++ pyStrFloat 5))] :=
  (c5_priority_gate envC5w [0] [] [("min_priority", .float 5), ("num_cpus", .float 4)]
    5 4 rfl rfl rfl rfl rfl).1 (by decide)
